import Mathlib

/-!
Verification development for the rate-limit retry transport in
`modrinth/ratelimit.go` of packwiz.  The Go code is shallowly embedded:
strings become `List Char`, Go `int64`/`time.Duration` arithmetic becomes
`Int` with explicit reduction into two's-complement range (`wrap64`), and
the delegate `http.RoundTripper` becomes a function from the attempt index
to the result of that dispatch.  The floating-point parse of the
`Retry-After` header (`strconv.ParseFloat` followed by conversion to a
duration) is represented by a parameter `pf : List Char → Option Int`
(`none` models a parse error, `some d` the resulting duration value);
every theorem below holds for every instantiation of that parameter.
-/

/-- Largest signed 64-bit integer, `2^63 - 1`. -/
def int64Max : Int := 9223372036854775807

/-- Reduction of an integer into signed 64-bit two's-complement range,
modelling Go's wrapping `int64` / `time.Duration` arithmetic. -/
def wrap64 (x : Int) : Int :=
  (x + 9223372036854775808) % 18446744073709551616 - 9223372036854775808

/-- Numeric value of a run of decimal digit characters. -/
def digitsVal (ds : List Char) : Nat :=
  ds.foldl (fun acc c => acc * 10 + (c.toNat - 48)) 0

/-- Drops the literal `lit` from the front of `s`, or `none` when `s`
does not start with `lit`. -/
def dropLit : List Char → List Char → Option (List Char)
  | [], s => some s
  | _ :: _, [] => none
  | p :: ps, c :: cs => if p = c then dropLit ps cs else none

/-- One attempt, at the start of `s`, of the Go regular-expression pattern
`Please wait (\d+)<unit>` used by `extractWaitTime`; returns the captured
digit run.  The trailing optional `s` of the Go patterns does not affect
the match (the pattern only requires the stem given in `unit`), and the
greedy `(\d+)` always captures the maximal digit run because the character
after the capture must be a space. -/
def scanHere (unit s : List Char) : Option (List Char) :=
  match dropLit ("Please wait ".data) s with
  | none => none
  | some rest =>
    let ds := rest.takeWhile Char.isDigit
    if ds = [] then none
    else
      match dropLit unit (rest.dropWhile Char.isDigit) with
      | none => none
      | some _ => some ds

/-- Leftmost match of the pattern anywhere in the body, as computed by Go's
`regexp.FindStringSubmatch`: positions are tried left to right. -/
def scanFor (unit : List Char) : List Char → Option (List Char)
  | [] => none
  | c :: cs =>
    match scanHere unit (c :: cs) with
    | some ds => some ds
    | none => scanFor unit cs

/-- Go `strconv.ParseInt(s, 10, 64)` applied to a digit-only capture: the
value is returned unless it exceeds the signed 64-bit range. -/
def parseInt64 (ds : List Char) : Option Int :=
  if (digitsVal ds : Int) ≤ int64Max then some (digitsVal ds) else none

/-- Stem of the literal following the capture in the first pattern of
`extractWaitTime` (`Please wait (\d+) milliseconds?`). -/
def msUnit : List Char := (" millisecond".data)

/-- Stem of the literal following the capture in the second pattern of
`extractWaitTime` (`Please wait (\d+) seconds?`). -/
def secUnit : List Char := (" second".data)

/-- One iteration of the pattern loop of `extractWaitTime`: on a match the
captured integer is parsed and converted to a duration
(`time.Duration(value) * mult`, wrapping in `int64`); a parse failure
falls through to the next pattern, exactly as `err == nil` guards the
`return` in the Go code. -/
def tryPattern (unit : List Char) (mult : Int) (body : List Char) : Option Int :=
  match scanFor unit body with
  | some ds =>
    match parseInt64 ds with
    | some v => some (wrap64 (v * mult))
    | none => none
  | none => none

/-- `extractWaitTime` from `modrinth/ratelimit.go`: tries the milliseconds
pattern, then the seconds pattern, and returns `0` when neither yields a
value. -/
def extractWaitTime (body : List Char) : Int :=
  match tryPattern msUnit 1000000 body with
  | some d => d
  | none =>
    match tryPattern secUnit 1000000000 body with
    | some d => d
    | none => 0

/-- The exponential-backoff fallback of `RoundTrip`
(`time.Duration(100*(1<<uint(attempt))) * time.Millisecond`): each Go
operation wraps in `int64`; a shift by 64 or more yields `0` in Go, which
coincides with `wrap64 (2 ^ attempt)` since `2 ^ a ≡ 0 [ZMOD 2^64]` for
`a ≥ 64`. -/
def fallbackWait (attempt : Nat) : Int :=
  wrap64 (wrap64 (100 * wrap64 (2 ^ attempt)) * 1000000)

/-- The safety buffer of `RoundTrip`
(`waitTime + waitTime/10 + 50*time.Millisecond`); Go integer division
truncates toward zero, and the sum wraps in `int64`. -/
def bufferWait (w : Int) : Int :=
  wrap64 (w + Int.tdiv w 10 + 50000000)

/-- The wait-time computation of one 429-handling pass of `RoundTrip`,
before the safety buffer: the body hint, else the `Retry-After` header
(consulted only when non-empty and, through `pf`, only when it parses),
else the exponential fallback.  Mirrors lines 53-67 of
`modrinth/ratelimit.go`. -/
def computeWait (pf : List Char → Option Int) (attempt : Nat)
    (retryAfter body : List Char) : Int :=
  let w1 := extractWaitTime body
  let w2 :=
    if w1 = 0 then
      if retryAfter = [] then 0
      else
        match pf retryAfter with
        | some d => wrap64 d
        | none => 0
    else w1
  if w2 = 0 then fallbackWait attempt else w2

/-- Result of one dispatch through the delegate transport: either a
transport-level error (`RoundTrip` of the delegate returned an error) or a
response with its status, `Retry-After` header value (`[]` when absent),
whether reading the body succeeds, and the body text. -/
inductive AttemptResult where
  | fail : AttemptResult
  | resp (status : Nat) (retryAfter : List Char) (bodyOk : Bool)
      (body : List Char) : AttemptResult
deriving DecidableEq

/-- What the caller of `RoundTrip` observes.  `returned` is a response
passed through with `err = nil`; `transportError` is the delegate's error
returned unretried; `readError` is the `failed to read rate limit
response` error; `exhausted retries` is the final 429 response together
with the error whose text is `exhaustedMessage retries`; `nilNil` is the
defensive fall-through after the loop (reachable only with a negative
`MaxRetries`), which returns a nil response and nil error. -/
inductive RTOutcome where
  | returned (status : Nat) (retryAfter : List Char) (bodyOk : Bool)
      (body : List Char) : RTOutcome
  | transportError : RTOutcome
  | readError : RTOutcome
  | exhausted (retries : Int) : RTOutcome
  | nilNil : RTOutcome
deriving DecidableEq

/-- Trace of one logical `RoundTrip` call: its outcome, the number of
dispatches made through the delegate, and the durations slept between
retries, in order. -/
structure RTResult where
  outcome : RTOutcome
  attempts : Nat
  sleeps : List Int
deriving DecidableEq

/-- The retry loop of `RoundTrip` (lines 30-85 of `modrinth/ratelimit.go`),
with the effective `MaxRetries` value `R` and the remaining number of loop
iterations as fuel (the Go loop runs for `attempt` from `0` while
`attempt ≤ R`).  On a 429 the body is read (a read failure returns an
error), the wait is computed and buffered, and when `attempt < R` the wait
is slept and the loop continues; at `attempt = R` the exhaustion error is
returned. -/
def rtLoop (pf : List Char → Option Int) (d : Nat → AttemptResult)
    (R : Int) : Nat → Nat → RTResult
  | _, 0 => ⟨RTOutcome.nilNil, 0, []⟩
  | attempt, fuel + 1 =>
    match d attempt with
    | AttemptResult.fail => ⟨RTOutcome.transportError, 1, []⟩
    | AttemptResult.resp st ra ok body =>
      if st = 429 then
        if ok then
          if (attempt : Int) < R then
            let rest := rtLoop pf d R (attempt + 1) fuel
            ⟨rest.outcome, rest.attempts + 1,
              bufferWait (computeWait pf attempt ra body) :: rest.sleeps⟩
          else ⟨RTOutcome.exhausted R, 1, []⟩
        else ⟨RTOutcome.readError, 1, []⟩
      else ⟨RTOutcome.returned st ra ok body, 1, []⟩

/-- The lazy defaulting at the top of `RoundTrip`: a zero `MaxRetries` is
replaced by 5 (lines 23-25 of `modrinth/ratelimit.go`). -/
def effectiveRetries (maxRetries : Int) : Int :=
  if maxRetries = 0 then 5 else maxRetries

/-- One logical `RoundTrip` call as a trace: the loop starts at attempt 0
and can run at most `R + 1` iterations (`attempt ≤ R`). -/
def roundTripRun (pf : List Char → Option Int) (d : Nat → AttemptResult)
    (maxRetries : Int) : RTResult :=
  rtLoop pf d (effectiveRetries maxRetries) 0
    ((effectiveRetries maxRetries) + 1).toNat

/-- The `rateLimitTransport` struct: the delegate reference (an optional
value of an abstract delegate type, `none` modelling a nil
`http.RoundTripper`) and the `MaxRetries` field (a Go `int`). -/
structure rateLimitTransport (τ : Type) where
  Transport : Option τ
  MaxRetries : Int
deriving DecidableEq

/-- The field writes performed at the top of `RoundTrip` (lines 20-25): a
nil `Transport` is replaced by `http.DefaultTransport` and a zero
`MaxRetries` by 5, in the receiver itself. -/
def applyDefaults {τ : Type} (defaultT : τ) (t : rateLimitTransport τ) :
    rateLimitTransport τ :=
  { Transport := some (t.Transport.getD defaultT),
    MaxRetries := effectiveRetries t.MaxRetries }

/-- `RoundTrip` of `rateLimitTransport`, as the pair of the receiver's
field state after the call and the call's trace.  `behave` gives the
dispatch behaviour of each possible delegate transport and `defaultT` is
`http.DefaultTransport`. -/
def RoundTrip {τ : Type} (defaultT : τ) (behave : τ → Nat → AttemptResult)
    (pf : List Char → Option Int) (t : rateLimitTransport τ) :
    rateLimitTransport τ × RTResult :=
  let t2 := applyDefaults defaultT t
  (t2, rtLoop pf (behave (t2.Transport.getD defaultT)) t2.MaxRetries 0
    (t2.MaxRetries + 1).toNat)

/-- The production client of `newRateLimitHTTPClient`: its transport wraps
`http.DefaultTransport` with `MaxRetries` set to 100 (line 121 of
`modrinth/ratelimit.go`). -/
def newRateLimitHTTPClient (τ : Type) (defaultT : τ) : rateLimitTransport τ :=
  { Transport := some defaultT, MaxRetries := 100 }

/-- Text of the exhaustion error returned at line 80 of
`modrinth/ratelimit.go`, with `%d` replaced by the decimal retry count. -/
def exhaustedMessage (retries : Int) : List Char :=
  ("rate limit exceeded after ".data) ++ (toString retries).data ++
    (" retries - Modrinth API is heavily rate limiting requests. Please try again later or contact Modrinth support if this persists".data)

/-- Whether a dispatch result is a 429 response whose body is readable. -/
def is429ok : AttemptResult → Bool
  | AttemptResult.fail => false
  | AttemptResult.resp st _ ok _ => st == 429 && ok

/-! Helper lemmas shared by the claim theorems. -/

lemma wrap64_eq_of_range (x : Int) (h1 : -9223372036854775808 ≤ x)
    (h2 : x ≤ int64Max) : wrap64 x = x := by
  unfold wrap64
  unfold int64Max at h2
  omega

lemma is429ok_eq (a : AttemptResult) (h : is429ok a = true) :
    ∃ ra body, a = AttemptResult.resp 429 ra true body := by
  cases a with
  | fail => simp [is429ok] at h
  | resp st ra ok body =>
    simp only [is429ok, Bool.and_eq_true, beq_iff_eq] at h
    exact ⟨ra, body, by rw [h.1, h.2]⟩

lemma rtLoop_continue429 (pf : List Char → Option Int)
    (d : Nat → AttemptResult) (R : Int) (attempt fuel : Nat)
    (ra body : List Char)
    (hd : d attempt = AttemptResult.resp 429 ra true body)
    (hlt : (attempt : Int) < R) :
    rtLoop pf d R attempt (fuel + 1) =
      ⟨(rtLoop pf d R (attempt + 1) fuel).outcome,
        (rtLoop pf d R (attempt + 1) fuel).attempts + 1,
        bufferWait (computeWait pf attempt ra body) ::
          (rtLoop pf d R (attempt + 1) fuel).sleeps⟩ := by
  simp [rtLoop, hd, hlt]

lemma rtLoop_stop429 (pf : List Char → Option Int)
    (d : Nat → AttemptResult) (R : Int) (attempt fuel : Nat)
    (ra body : List Char)
    (hd : d attempt = AttemptResult.resp 429 ra true body)
    (hge : ¬ (attempt : Int) < R) :
    rtLoop pf d R attempt (fuel + 1) = ⟨RTOutcome.exhausted R, 1, []⟩ := by
  simp [rtLoop, hd, hge]

lemma rtLoop_failStep (pf : List Char → Option Int)
    (d : Nat → AttemptResult) (R : Int) (attempt fuel : Nat)
    (hd : d attempt = AttemptResult.fail) :
    rtLoop pf d R attempt (fuel + 1) = ⟨RTOutcome.transportError, 1, []⟩ := by
  simp [rtLoop, hd]

lemma rtLoop_non429 (pf : List Char → Option Int)
    (d : Nat → AttemptResult) (R : Int) (attempt fuel : Nat)
    (st : Nat) (ra : List Char) (ok : Bool) (body : List Char)
    (hd : d attempt = AttemptResult.resp st ra ok body) (hst : st ≠ 429) :
    rtLoop pf d R attempt (fuel + 1) =
      ⟨RTOutcome.returned st ra ok body, 1, []⟩ := by
  simp [rtLoop, hd, hst]

lemma effectiveRetries_of_pos (R : Int) (hR : 0 < R) :
    effectiveRetries R = R := by
  unfold effectiveRetries
  split
  · omega
  · rfl

lemma effectiveRetries_pos (R : Int) (hR : 0 ≤ R) :
    0 < effectiveRetries R := by
  unfold effectiveRetries
  split
  · omega
  · omega

/-! Claim C1. -/

/-- Claim C1, counterexample.  The claim states that an unset/zero
`MaxRetries` gives a default retry ceiling of 100 (hence 101 attempts
against a delegate that always rate-limits) and that
`newRateLimitHTTPClient` configures 50.  Neither holds: the default in
`RoundTrip` is 5 (6 attempts) and the production client sets 100. -/
theorem default_ceiling_cex :
    (roundTripRun (fun _ => none)
        (fun _ => AttemptResult.resp 429 [] true []) 0).attempts ≠ 101 ∧
    (newRateLimitHTTPClient Unit ()).MaxRetries ≠ 50 := by
  constructor
  · decide
  · decide

/-- Claim C1, amended.  With `MaxRetries` unset/zero, `RoundTrip` uses a
default retry ceiling of 5 (6 total attempts against a delegate that
always rate-limits), and the production client built by
`newRateLimitHTTPClient` configures a ceiling of 100. -/
theorem default_ceiling_spec :
    effectiveRetries 0 = 5 ∧
    (roundTripRun (fun _ => none)
        (fun _ => AttemptResult.resp 429 [] true []) 0).attempts = 6 ∧
    (newRateLimitHTTPClient Unit ()).MaxRetries = 100 := by
  refine ⟨by decide, by decide, by decide⟩

/-! Claim C2. -/

lemma rtLoop_all429 (pf : List Char → Option Int) (d : Nat → AttemptResult)
    (R : Int) (h429 : ∀ i, is429ok (d i) = true) :
    ∀ (fuel attempt : Nat), ((attempt : Int) + (fuel : Int) = R + 1) → 0 < fuel →
      (rtLoop pf d R attempt fuel).attempts = fuel ∧
      (rtLoop pf d R attempt fuel).outcome = RTOutcome.exhausted R := by
  intro fuel
  induction fuel with
  | zero => intro attempt _ h0; omega
  | succ f ih =>
    intro attempt hsum _
    obtain ⟨ra, body, hd⟩ := is429ok_eq (d attempt) (h429 attempt)
    by_cases hlt : (attempt : Int) < R
    · have hf : 0 < f := by omega
      have hsum2 : ((attempt + 1 : Nat) : Int) + f = R + 1 := by
        push_cast
        push_cast at hsum
        omega
      have hrec := ih (attempt + 1) hsum2 hf
      rw [rtLoop_continue429 pf d R attempt f ra body hd hlt]
      refine ⟨?_, hrec.2⟩
      show (rtLoop pf d R (attempt + 1) f).attempts + 1 = f + 1
      rw [hrec.1]
    · have hf0 : f = 0 := by omega
      rw [rtLoop_stop429 pf d R attempt f ra body hd hlt]
      subst hf0
      exact ⟨rfl, rfl⟩

/-- Claim C2 (confirmed).  Against a delegate returning a (readable) 429
response on every attempt, `RoundTrip` with a configured (positive)
`MaxRetries` of `R` makes exactly `R + 1` dispatches, never more, and
returns the exhaustion error, whose text starts with the substring
`rate limit exceeded after <R> retries`. -/
theorem exhaustion_attempts (pf : List Char → Option Int)
    (d : Nat → AttemptResult) (R : Int) (hR : 0 < R)
    (h429 : ∀ i, is429ok (d i) = true) :
    (roundTripRun pf d R).attempts = R.toNat + 1 ∧
    (roundTripRun pf d R).outcome = RTOutcome.exhausted R ∧
    ∃ tail, exhaustedMessage R =
      ("rate limit exceeded after ".data) ++ (toString R).data ++
        (" retries".data) ++ tail := by
  have hEff := effectiveRetries_of_pos R hR
  have hsum : ((0 : Nat) : Int) + (((R + 1).toNat : Nat) : Int) = R + 1 := by omega
  have hfuel : 0 < (R + 1).toNat := by omega
  have h := rtLoop_all429 pf d R h429 (R + 1).toNat 0 hsum hfuel
  unfold roundTripRun
  rw [hEff]
  refine ⟨?_, h.2, ?_⟩
  · rw [h.1]; omega
  · refine ⟨(" - Modrinth API is heavily rate limiting requests. Please try again later or contact Modrinth support if this persists".data), ?_⟩
    unfold exhaustedMessage
    have hsplit : (" retries - Modrinth API is heavily rate limiting requests. Please try again later or contact Modrinth support if this persists".data) =
        (" retries".data) ++ (" - Modrinth API is heavily rate limiting requests. Please try again later or contact Modrinth support if this persists".data) := by
      decide
    rw [hsplit]
    simp [List.append_assoc]

/-- Claim C2, witness at `R = 2` with a delegate that always returns a
readable 429 response. -/
theorem exhaustion_attempts_witness :
    (roundTripRun (fun _ => none)
        (fun _ => AttemptResult.resp 429 [] true []) 2).attempts = 3 ∧
    (roundTripRun (fun _ => none)
        (fun _ => AttemptResult.resp 429 [] true []) 2).outcome =
      RTOutcome.exhausted 2 ∧
    ∃ tail, exhaustedMessage 2 =
      ("rate limit exceeded after ".data) ++ (toString (2 : Int)).data ++
        (" retries".data) ++ tail :=
  exhaustion_attempts (fun _ => none)
    (fun _ => AttemptResult.resp 429 [] true []) 2 (by omega) (fun _ => rfl)

/-! Claim C3, with helper lemmas about the two extraction patterns. -/

lemma tryPattern_some (unit : List Char) (mult : Int) (body ds : List Char)
    (hscan : scanFor unit body = some ds)
    (hle : (digitsVal ds : Int) ≤ int64Max) :
    tryPattern unit mult body = some (wrap64 ((digitsVal ds : Int) * mult)) := by
  unfold tryPattern parseInt64
  rw [hscan]
  simp [hle]

lemma tryPattern_none (unit : List Char) (mult : Int) (body : List Char)
    (hscan : scanFor unit body = none) :
    tryPattern unit mult body = none := by
  unfold tryPattern
  rw [hscan]

lemma extract_zero (body : List Char)
    (hms : scanFor msUnit body = none) (hsec : scanFor secUnit body = none) :
    extractWaitTime body = 0 := by
  unfold extractWaitTime
  rw [tryPattern_none msUnit 1000000 body hms,
      tryPattern_none secUnit 1000000000 body hsec]

/-- Claim C3, counterexample.  The body below matches the phrase
`Please wait 2 seconds`, so the claim requires a result of exactly 2
seconds; but `extractWaitTime` tries the milliseconds pattern over the
whole body first and returns 3 milliseconds. -/
theorem extract_cex :
    scanFor secUnit ("Please wait 2 seconds. Please wait 3 milliseconds.".data) =
      some (['2']) ∧
    extractWaitTime ("Please wait 2 seconds. Please wait 3 milliseconds.".data) =
      3000000 ∧
    (3000000 : Int) ≠ 2 * 1000000000 := by
  refine ⟨by decide, by decide, by decide⟩

/-- Claim C3, amended.  The milliseconds pattern takes precedence: a body
whose leftmost milliseconds match captures `N` (with `N` milliseconds
representable in a signed 64-bit duration) yields exactly `N`
milliseconds; a body with no milliseconds match whose leftmost seconds
match captures `N` (representable) yields exactly `N` seconds; a body
matching neither pattern yields zero. -/
theorem extract_spec (body : List Char) :
    (∀ ds, scanFor msUnit body = some ds →
      (digitsVal ds : Int) * 1000000 ≤ int64Max →
      extractWaitTime body = (digitsVal ds : Int) * 1000000) ∧
    (scanFor msUnit body = none → ∀ ds, scanFor secUnit body = some ds →
      (digitsVal ds : Int) * 1000000000 ≤ int64Max →
      extractWaitTime body = (digitsVal ds : Int) * 1000000000) ∧
    (scanFor msUnit body = none → scanFor secUnit body = none →
      extractWaitTime body = 0) := by
  refine ⟨?_, ?_, extract_zero body⟩
  · intro ds hscan hle
    have h0 : (0 : Int) ≤ (digitsVal ds : Int) := Int.natCast_nonneg _
    have hle1 : (digitsVal ds : Int) ≤ int64Max := by
      unfold int64Max at hle ⊢
      omega
    unfold extractWaitTime
    rw [tryPattern_some msUnit 1000000 body ds hscan hle1]
    show wrap64 ((digitsVal ds : Int) * 1000000) = (digitsVal ds : Int) * 1000000
    apply wrap64_eq_of_range
    · unfold int64Max at hle
      omega
    · exact hle
  · intro hms ds hscan hle
    have h0 : (0 : Int) ≤ (digitsVal ds : Int) := Int.natCast_nonneg _
    have hle1 : (digitsVal ds : Int) ≤ int64Max := by
      unfold int64Max at hle ⊢
      omega
    unfold extractWaitTime
    rw [tryPattern_none msUnit 1000000 body hms,
        tryPattern_some secUnit 1000000000 body ds hscan hle1]
    show wrap64 ((digitsVal ds : Int) * 1000000000) =
      (digitsVal ds : Int) * 1000000000
    apply wrap64_eq_of_range
    · unfold int64Max at hle
      omega
    · exact hle

/-- Claim C3, witness: the milliseconds conjunct evaluated on a concrete
rate-limit body. -/
theorem extract_spec_witness :
    extractWaitTime
      ("You are being rate-limited. Please wait 500 milliseconds. 0/300 remaining.".data) =
      500000000 := by
  have h := (extract_spec
      ("You are being rate-limited. Please wait 500 milliseconds. 0/300 remaining.".data)).1
    (['5', '0', '0']) (by decide) (by decide)
  exact h.trans (by decide)

/-! Claim C4. -/

lemma fallbackWait_closed (i : Nat) (hi : i ≤ 36) :
    fallbackWait i = 100 * 2 ^ i * 1000000 := by
  have hpos : (0 : Int) < 2 ^ i := pow_pos (by norm_num) i
  have h2 : (2 : Int) ^ i ≤ 2 ^ 36 := pow_le_pow_right₀ (by norm_num) hi
  have h36 : (2 : Int) ^ 36 = 68719476736 := by norm_num
  rw [h36] at h2
  unfold fallbackWait
  rw [wrap64_eq_of_range ((2 : Int) ^ i) (by omega)
        (by unfold int64Max; omega),
      wrap64_eq_of_range (100 * 2 ^ i) (by omega)
        (by unfold int64Max; omega),
      wrap64_eq_of_range (100 * 2 ^ i * 1000000) (by omega)
        (by unfold int64Max; omega)]

/-- Claim C4, counterexample.  The fallback schedule is computed in
wrapping signed 64-bit arithmetic: at attempt 37 the product
`100ms * 2^37` overflows, so the wait is not `100ms * 2^37` and the
schedule is not strictly increasing up to the production retry ceiling of
100 (attempt 37 is below that ceiling). -/
theorem backoff_cex :
    fallbackWait 37 ≠ 100 * 2 ^ 37 * 1000000 ∧
    ¬ fallbackWait 36 < fallbackWait 37 ∧
    (37 : Int) ≤ (newRateLimitHTTPClient Unit ()).MaxRetries := by
  refine ⟨by decide, by decide, by decide⟩

/-- Claim C4, amended.  For attempts 0 through 36 the pre-buffer fallback
wait equals `100ms * 2^attempt` and the schedule is strictly increasing;
beyond attempt 36 the signed 64-bit computation wraps.  The third
conjunct ties the schedule to the program's wait computation: with no
recognized body hint and no parseable `Retry-After` header the computed
wait is the fallback. -/
theorem backoff_spec (i : Nat) :
    (i ≤ 36 → fallbackWait i = 100 * 2 ^ i * 1000000) ∧
    (i < 36 → fallbackWait i < fallbackWait (i + 1)) ∧
    (∀ (pf : List Char → Option Int) (ra body : List Char),
      scanFor msUnit body = none → scanFor secUnit body = none →
      (ra = [] ∨ pf ra = none) →
      computeWait pf i ra body = fallbackWait i) := by
  refine ⟨fallbackWait_closed i, ?_, ?_⟩
  · intro hi
    have hpos : (0 : Int) < 2 ^ i := pow_pos (by norm_num) i
    have hp : (2 : Int) ^ (i + 1) = 2 ^ i * 2 := pow_succ 2 i
    rw [fallbackWait_closed i (by omega), fallbackWait_closed (i + 1) (by omega), hp]
    generalize (2 : Int) ^ i = a at hpos ⊢
    omega
  · intro pf ra body hms hsec hdisj
    rcases hdisj with hra | hpf
    · simp [computeWait, extract_zero body hms hsec, hra]
    · rcases eq_or_ne ra [] with h | h
      · simp [computeWait, extract_zero body hms hsec, h]
      · simp [computeWait, extract_zero body hms hsec, h, hpf]

/-- Claim C4, witness at attempt 3 with a body and header carrying no
usable hint. -/
theorem backoff_spec_witness :
    fallbackWait 3 = 100 * 2 ^ 3 * 1000000 ∧
    fallbackWait 3 < fallbackWait 4 ∧
    computeWait (fun _ => none) 3 ("Wed, 21 Oct 2015 07:28:00 GMT".data)
      ("Rate limited".data) = fallbackWait 3 := by
  have h := backoff_spec 3
  exact ⟨h.1 (by omega), h.2.1 (by omega),
    h.2.2 (fun _ => none) _ _ (by decide) (by decide) (Or.inr rfl)⟩

/-! Claim C10. -/

/-- Claim C10 (confirmed).  When the body matches neither extraction
pattern and the `Retry-After` header value does not parse as a
floating-point number (`pf ra = none`), the header is silently ignored:
the computed wait for the attempt is exactly the exponential-backoff
fallback, and no error arises (the wait computation is total). -/
theorem header_fallback (pf : List Char → Option Int) (attempt : Nat)
    (ra body : List Char)
    (hms : scanFor msUnit body = none) (hsec : scanFor secUnit body = none)
    (hpf : pf ra = none) :
    computeWait pf attempt ra body = fallbackWait attempt := by
  rcases eq_or_ne ra [] with h | h
  · simp [computeWait, extract_zero body hms hsec, h]
  · simp [computeWait, extract_zero body hms hsec, h, hpf]

/-- Claim C10, witness: an HTTP-date `Retry-After` value with an
unrecognized body falls through to the backoff at attempt 2. -/
theorem header_fallback_witness :
    computeWait (fun _ => none) 2 ("Thu, 01 Jan 2026 00:00:00 GMT".data)
      ("too many requests".data) = fallbackWait 2 :=
  header_fallback (fun _ => none) 2 _ _ (by decide) (by decide) rfl

/-! Claim C5. -/

/-- Claim C5, counterexample.  A context that expires during the first
inter-retry wait is modelled by a delegate whose every dispatch after
attempt 0 reports the context's error.  The claim requires the wait to be
interrupted and no further attempt to be dispatched (one dispatch, no
completed sleep); the code instead sleeps the full buffered wait
(72000000 ns for the 20 ms body hint) and dispatches a second attempt,
whose error it then returns. -/
theorem cancel_cex :
    roundTripRun (fun _ => none)
        (fun i => if i = 0 then
            AttemptResult.resp 429 [] true ("Please wait 20 milliseconds".data)
          else AttemptResult.fail) 3 =
      ⟨RTOutcome.transportError, 2, [72000000]⟩ := by
  decide

lemma rtLoop_429run_fail (pf : List Char → Option Int)
    (d : Nat → AttemptResult) (R : Int) :
    ∀ (k attempt fuel : Nat),
      (∀ i, i < k → is429ok (d (attempt + i)) = true) →
      d (attempt + k) = AttemptResult.fail →
      (((attempt + k : Nat) : Int)) ≤ R →
      k < fuel →
      (rtLoop pf d R attempt fuel).outcome = RTOutcome.transportError ∧
      (rtLoop pf d R attempt fuel).attempts = k + 1 ∧
      (rtLoop pf d R attempt fuel).sleeps.length = k := by
  intro k
  induction k with
  | zero =>
    intro attempt fuel _ hfail _ hfuel
    cases fuel with
    | zero => omega
    | succ f =>
      rw [rtLoop_failStep pf d R attempt f (by simpa using hfail)]
      exact ⟨rfl, rfl, rfl⟩
  | succ k ih =>
    intro attempt fuel h429 hfail hbound hfuel
    cases fuel with
    | zero => omega
    | succ f =>
      obtain ⟨ra, body, hd⟩ :=
        is429ok_eq (d attempt) (by simpa using h429 0 (by omega))
      have hlt : (attempt : Int) < R := by
        push_cast at hbound
        omega
      rw [rtLoop_continue429 pf d R attempt f ra body hd hlt]
      have h429s : ∀ i, i < k → is429ok (d (attempt + 1 + i)) = true := by
        intro i hi
        have := h429 (i + 1) (by omega)
        rwa [show attempt + (i + 1) = attempt + 1 + i by omega] at this
      have hfail2 : d (attempt + 1 + k) = AttemptResult.fail := by
        rwa [show attempt + (k + 1) = attempt + 1 + k by omega] at hfail
      have hbound2 : (((attempt + 1 + k : Nat) : Int)) ≤ R := by
        push_cast at hbound ⊢
        omega
      have hrec := ih (attempt + 1) f h429s hfail2 hbound2 (by omega)
      refine ⟨hrec.1, ?_, ?_⟩
      · show (rtLoop pf d R (attempt + 1) f).attempts + 1 = k + 1 + 1
        rw [hrec.2.1]
      · show ((bufferWait (computeWait pf attempt ra body)) ::
          (rtLoop pf d R (attempt + 1) f).sleeps).length = k + 1
        rw [List.length_cons, hrec.2.2]

/-- Claim C5, amended.  The inter-retry wait is a plain `time.Sleep` and
is not cancellable: a context expiry during a wait does not interrupt the
call.  After `k` rate-limited attempts whose waits were fully slept, the
first dispatch that reports the (cancellation) transport error has its
error returned immediately with no further retries, for a total of
`k + 1` dispatches and `k` completed sleeps. -/
theorem cancel_spec (pf : List Char → Option Int) (d : Nat → AttemptResult)
    (R : Int) (k : Nat) (hR : 0 < R) (hk : (k : Int) ≤ R)
    (h429 : ∀ i, i < k → is429ok (d i) = true)
    (hfail : d k = AttemptResult.fail) :
    (roundTripRun pf d R).outcome = RTOutcome.transportError ∧
    (roundTripRun pf d R).attempts = k + 1 ∧
    (roundTripRun pf d R).sleeps.length = k := by
  unfold roundTripRun
  rw [effectiveRetries_of_pos R hR]
  exact rtLoop_429run_fail pf d R k 0 (R + 1).toNat
    (by intro i hi; simpa using h429 i hi) (by simpa using hfail)
    (by push_cast; omega) (by omega)

/-- Claim C5, witness: one rate-limited attempt, then a failing dispatch,
with `MaxRetries = 3`. -/
theorem cancel_spec_witness :
    (roundTripRun (fun _ => none)
        (fun i => if i = 0 then AttemptResult.resp 429 [] true []
          else AttemptResult.fail) 3).outcome = RTOutcome.transportError ∧
    (roundTripRun (fun _ => none)
        (fun i => if i = 0 then AttemptResult.resp 429 [] true []
          else AttemptResult.fail) 3).attempts = 2 ∧
    (roundTripRun (fun _ => none)
        (fun i => if i = 0 then AttemptResult.resp 429 [] true []
          else AttemptResult.fail) 3).sleeps.length = 1 :=
  cancel_spec (fun _ => none) _ 3 1 (by omega) (by omega)
    (fun i hi => by
      have : i = 0 := by omega
      subst this
      rfl)
    rfl

/-! Claim C6. -/

/-- Claim C6, counterexample.  `RoundTrip` is not free of writes to the
receiver: called on a transport whose fields are unset (`Transport` nil,
`MaxRetries` zero), it stores the defaults into the fields, so their
values after the call differ from their values before it. -/
theorem config_mutation_cex :
    (RoundTrip () (fun _ _ => AttemptResult.resp 200 [] true [])
        (fun _ => none) (⟨none, 0⟩ : rateLimitTransport Unit)).1 ≠
      ⟨none, 0⟩ := by
  decide

/-- Claim C6, amended.  The configuration is left unchanged by `RoundTrip`
provided both fields were explicitly set (a non-nil `Transport` and a
non-zero `MaxRetries`); when either is unset, the call writes the default
(`http.DefaultTransport`, retry ceiling 5) into that field. -/
theorem config_immutable {τ : Type} (defaultT : τ)
    (behave : τ → Nat → AttemptResult) (pf : List Char → Option Int)
    (t : rateLimitTransport τ) (x : τ)
    (hT : t.Transport = some x) (hM : t.MaxRetries ≠ 0) :
    (RoundTrip defaultT behave pf t).1 = t := by
  obtain ⟨tr, mr⟩ := t
  simp only at hT hM
  subst hT
  unfold RoundTrip applyDefaults effectiveRetries
  simp [hM]

/-- Claim C6, witness on a fully configured transport. -/
theorem config_immutable_witness :
    (RoundTrip () (fun _ _ => AttemptResult.resp 200 [] true [])
        (fun _ => none) (⟨some (), 7⟩ : rateLimitTransport Unit)).1 =
      ⟨some (), 7⟩ :=
  config_immutable () (fun _ _ => AttemptResult.resp 200 [] true [])
    (fun _ => none) ⟨some (), 7⟩ () rfl (by decide)

/-! Claim C7. -/

lemma rtLoop_shape (pf : List Char → Option Int) (d : Nat → AttemptResult)
    (R : Int)
    (hok : ∀ i, ∃ st ra body, d i = AttemptResult.resp st ra true body) :
    ∀ (fuel attempt : Nat), ((attempt : Int) + (fuel : Int) = R + 1) →
      0 < fuel →
      (∃ st ra body, st ≠ 429 ∧
        (rtLoop pf d R attempt fuel).outcome =
          RTOutcome.returned st ra true body) ∨
      (rtLoop pf d R attempt fuel).outcome = RTOutcome.exhausted R := by
  intro fuel
  induction fuel with
  | zero => intro attempt _ h0; omega
  | succ f ih =>
    intro attempt hsum _
    obtain ⟨st, ra, body, hd⟩ := hok attempt
    by_cases hst : st = 429
    · subst hst
      by_cases hlt : (attempt : Int) < R
      · have hrec := ih (attempt + 1) (by push_cast at hsum ⊢; omega)
          (by push_cast at hsum; omega)
        rw [rtLoop_continue429 pf d R attempt f ra body hd hlt]
        exact hrec
      · rw [rtLoop_stop429 pf d R attempt f ra body hd hlt]
        exact Or.inr rfl
    · rw [rtLoop_non429 pf d R attempt f st ra true body hd hst]
      exact Or.inl ⟨st, ra, body, hst, rfl⟩

/-- Claim C7 (confirmed).  For a call whose dispatches all succeed at the
transport level (each attempt returns a response with a readable body) and
a non-negative configured `MaxRetries`, the caller observes either a
response whose status is not 429, or the single terminal rate-limit
exhaustion error; no transport error, no body-read error, and no 429
response is ever returned from this layer. -/
theorem outcome_shape (pf : List Char → Option Int) (d : Nat → AttemptResult)
    (R : Int) (hR : 0 ≤ R)
    (hok : ∀ i, ∃ st ra body, d i = AttemptResult.resp st ra true body) :
    (∃ st ra body, st ≠ 429 ∧
      (roundTripRun pf d R).outcome = RTOutcome.returned st ra true body) ∨
    (roundTripRun pf d R).outcome =
      RTOutcome.exhausted (effectiveRetries R) := by
  have hpos := effectiveRetries_pos R hR
  unfold roundTripRun
  exact rtLoop_shape pf d (effectiveRetries R) hok
    ((effectiveRetries R) + 1).toNat 0 (by push_cast; omega) (by omega)

/-- Claim C7, witness: a delegate answering 200 on every attempt. -/
theorem outcome_shape_witness :
    (∃ st ra body, st ≠ 429 ∧
      (roundTripRun (fun _ => none)
        (fun _ => AttemptResult.resp 200 [] true []) 3).outcome =
          RTOutcome.returned st ra true body) ∨
    (roundTripRun (fun _ => none)
        (fun _ => AttemptResult.resp 200 [] true []) 3).outcome =
      RTOutcome.exhausted (effectiveRetries 3) :=
  outcome_shape (fun _ => none) (fun _ => AttemptResult.resp 200 [] true [])
    3 (by omega) (fun _ => ⟨200, [], [], rfl⟩)

/-! Claim C8. -/

lemma rtLoop_sleep_at (pf : List Char → Option Int)
    (d : Nat → AttemptResult) (R : Int) :
    ∀ (k attempt fuel : Nat) (ra body : List Char),
      (∀ i, i < k → is429ok (d (attempt + i)) = true) →
      d (attempt + k) = AttemptResult.resp 429 ra true body →
      (((attempt + k : Nat) : Int)) < R →
      k < fuel →
      (rtLoop pf d R attempt fuel).sleeps.get? k =
        some (bufferWait (computeWait pf (attempt + k) ra body)) := by
  intro k
  induction k with
  | zero =>
    intro attempt fuel ra body _ hd hlt hfuel
    cases fuel with
    | zero => omega
    | succ f =>
      rw [rtLoop_continue429 pf d R attempt f ra body (by simpa using hd)
        (by push_cast at hlt; omega)]
      simp
  | succ k ih =>
    intro attempt fuel ra body h429 hd hlt hfuel
    cases fuel with
    | zero => omega
    | succ f =>
      obtain ⟨ra0, body0, hd0⟩ :=
        is429ok_eq (d attempt) (by simpa using h429 0 (by omega))
      have hlt0 : (attempt : Int) < R := by
        push_cast at hlt
        omega
      rw [rtLoop_continue429 pf d R attempt f ra0 body0 hd0 hlt0]
      show ((bufferWait (computeWait pf attempt ra0 body0)) ::
        (rtLoop pf d R (attempt + 1) f).sleeps).get? (k + 1) =
          some (bufferWait (computeWait pf (attempt + (k + 1)) ra body))
      rw [List.get?_cons_succ]
      have h429s : ∀ i, i < k → is429ok (d (attempt + 1 + i)) = true := by
        intro i hi
        have := h429 (i + 1) (by omega)
        rwa [show attempt + (i + 1) = attempt + 1 + i by omega] at this
      have hd2 : d (attempt + 1 + k) = AttemptResult.resp 429 ra true body := by
        rwa [show attempt + (k + 1) = attempt + 1 + k by omega] at hd
      have hlt2 : (((attempt + 1 + k : Nat) : Int)) < R := by
        push_cast at hlt ⊢
        omega
      have := ih (attempt + 1) f ra body h429s hd2 hlt2 (by omega)
      rwa [show attempt + 1 + k = attempt + (k + 1) by omega] at this

/-- Claim C8, counterexample.  The buffered sleep is computed in wrapping
signed 64-bit arithmetic, so the claimed formula fails on reachable
computed waits: a first-attempt body hint of 9223372036854 milliseconds
yields a computed wait within the signed 64-bit range, yet the duration
actually slept before the retry wraps negative and differs from
`w + w/10 + 50ms`. -/
theorem sleep_buffer_cex :
    computeWait (fun _ => none) 0 []
      ("Please wait 9223372036854 milliseconds".data) = 9223372036854000000 ∧
    (roundTripRun (fun _ => none)
        (fun i => if i = 0 then
            AttemptResult.resp 429 [] true
              ("Please wait 9223372036854 milliseconds".data)
          else AttemptResult.resp 200 [] true []) 3).sleeps =
      [bufferWait 9223372036854000000] ∧
    bufferWait 9223372036854000000 ≠
      9223372036854000000 + Int.tdiv 9223372036854000000 10 + 50000000 ∧
    bufferWait 9223372036854000000 < 0 := by
  refine ⟨by decide, by decide, by decide, by decide⟩

/-- Claim C8, amended.  The duration slept after the `k`-th rate-limited
attempt is exactly the buffered wait `bufferWait` of the computed wait for
that attempt; the buffer, computed in wrapping signed 64-bit arithmetic,
equals the claimed formula - computed wait plus a tenth of it (Go integer
division) plus the fixed 50 ms constant - whenever that sum lies within
the signed 64-bit range, and wraps outside it. -/
theorem sleep_buffer (pf : List Char → Option Int) (d : Nat → AttemptResult)
    (R : Int) (k : Nat) (ra body : List Char) (hR : 0 < R)
    (hk : (k : Int) < R)
    (h429 : ∀ i, i < k → is429ok (d i) = true)
    (hd : d k = AttemptResult.resp 429 ra true body) :
    (roundTripRun pf d R).sleeps.get? k =
      some (bufferWait (computeWait pf k ra body)) ∧
    ∀ w : Int, 0 ≤ w → w + Int.tdiv w 10 + 50000000 ≤ int64Max →
      bufferWait w = w + Int.tdiv w 10 + 50000000 := by
  constructor
  · unfold roundTripRun
    rw [effectiveRetries_of_pos R hR]
    have := rtLoop_sleep_at pf d R k 0 (R + 1).toNat ra body
      (by intro i hi; simpa using h429 i hi) (by simpa using hd)
      (by push_cast; omega) (by omega)
    simpa using this
  · intro w h0 hle
    have ht : 0 ≤ Int.tdiv w 10 := Int.tdiv_nonneg h0 (by norm_num)
    unfold bufferWait
    apply wrap64_eq_of_range
    · omega
    · exact hle

/-- Claim C8, witness: second attempt of an always-rate-limited delegate
advertising 20 ms; the slept wait is 20 ms + 2 ms + 50 ms. -/
theorem sleep_buffer_witness :
    (roundTripRun (fun _ => none)
        (fun _ => AttemptResult.resp 429 []
          true ("Please wait 20 milliseconds".data)) 3).sleeps.get? 1 =
      some (bufferWait (computeWait (fun _ => none) 1 []
        ("Please wait 20 milliseconds".data))) ∧
    bufferWait 20000000 = 20000000 + Int.tdiv 20000000 10 + 50000000 := by
  have h := sleep_buffer (fun _ => none)
    (fun _ => AttemptResult.resp 429 [] true
      ("Please wait 20 milliseconds".data)) 3 1 []
    ("Please wait 20 milliseconds".data) (by omega) (by omega)
    (fun i hi => rfl) rfl
  exact ⟨h.1, h.2 20000000 (by omega) (by decide)⟩

/-! Claim C9. -/

/-- Claim C9 (confirmed).  Whenever the first dispatch yields a response
whose status is not 429 (for example 500), `RoundTrip` returns that
response unchanged with exactly one dispatch and no sleeps, for every
non-negative configured `MaxRetries`. -/
theorem non429_passthrough (pf : List Char → Option Int)
    (d : Nat → AttemptResult) (R : Int) (hR : 0 ≤ R)
    (st : Nat) (ra : List Char) (ok : Bool) (body : List Char)
    (h0 : d 0 = AttemptResult.resp st ra ok body) (hst : st ≠ 429) :
    roundTripRun pf d R = ⟨RTOutcome.returned st ra ok body, 1, []⟩ := by
  have hpos := effectiveRetries_pos R hR
  unfold roundTripRun
  obtain ⟨f, hf⟩ : ∃ f, ((effectiveRetries R) + 1).toNat = f + 1 :=
    ⟨(effectiveRetries R).toNat, by omega⟩
  rw [hf]
  exact rtLoop_non429 pf d (effectiveRetries R) 0 f st ra ok body h0 hst

/-- Claim C9, witness: an HTTP 500 on the first attempt is passed through
with one dispatch and no retry. -/
theorem non429_passthrough_witness :
    roundTripRun (fun _ => none)
        (fun _ => AttemptResult.resp 500 [] true []) 5 =
      ⟨RTOutcome.returned 500 [] true [], 1, []⟩ :=
  non429_passthrough (fun _ => none)
    (fun _ => AttemptResult.resp 500 [] true []) 5 (by omega)
    500 [] true [] rfl (by omega)
